import Mathlib

/-!
Shallow embedding of the key lifecycle engine of `nestjs-jwks`
(`src/jwks.service.ts`, schema in `src/schemas/metadata.schema.ts`).

Timestamps are milliseconds since the epoch, modelled as `Int`
(JavaScript `Date.now()` values and the configured durations are exact
integers in this range).  The filesystem and the crypto gateway are
modelled by oracles: `rotateKeys` receives the freshly generated key id
and the key file path as arguments, and `updateJwks` receives predicates
telling which key files exist and which decode successfully.
-/

namespace NestjsJwks

/-- The `status` enum of `keySchema` in `src/schemas/metadata.schema.ts`:
`"active" | "deprecated" | "expired" | "revoked"`. -/
inductive Status where
  | active
  | deprecated
  | expired
  | revoked
deriving DecidableEq, Repr

/-- The `Key` record of `src/schemas/metadata.schema.ts`. -/
structure Key where
  kid : String
  status : Status
  createdAt : Int
  expiresAt : Int
  deprecatedAt : Option Int
  expiredAt : Option Int
  revokedAt : Option Int
  removedAt : Option Int
  keyPath : Option String
deriving DecidableEq, Repr

/-- The `Metadata` record of `src/schemas/metadata.schema.ts`:
`{ keys: Key[] }`. -/
structure Metadata where
  keys : List Key
deriving DecidableEq, Repr

/-- The "Purge expired keys" pass of `rotateKeys`
(`src/jwks.service.ts:126-137`), acting on one record: a record that is
neither `expired` nor `revoked` and whose `expiresAt <= now` gets
`status := expired` and `expiredAt := now`; all other records are left
unchanged. -/
def expireStep (now : Int) (k : Key) : Key :=
  if k.status ≠ Status.expired ∧ k.status ≠ Status.revoked ∧ k.expiresAt ≤ now then
    { k with status := Status.expired, expiredAt := some now }
  else
    k

/-- The "Deprecate active key" pass of `rotateKeys`
(`src/jwks.service.ts:140-146`), acting on one record: an `active`
record gets `status := deprecated` and `deprecatedAt := now`. -/
def deprecateStep (now : Int) (k : Key) : Key :=
  if k.status = Status.active then
    { k with status := Status.deprecated, deprecatedAt := some now }
  else
    k

/-- The record pushed by `rotateKeys` (`src/jwks.service.ts:172-182`):
`kid` is the freshly generated UUID and `kpath` the result of
`this.keyPath(kid)`, both passed in as oracle data. -/
def newKey (now expirationTime : Int) (kid kpath : String) : Key :=
  { kid := kid
    status := Status.active
    createdAt := now
    expiresAt := now + expirationTime
    deprecatedAt := none
    expiredAt := none
    revokedAt := none
    removedAt := none
    keyPath := some kpath }

/-- The metadata mutation performed by `rotateKeys`
(`src/jwks.service.ts:121-201`): expire overdue records, then deprecate
the active record, then append the freshly generated key.  The two
`filter(...).forEach(...)` passes over the in-place array are the two
sequential `List.map` applications. -/
def rotateKeys (now expirationTime : Int) (kid kpath : String) (m : Metadata) : Metadata :=
  { keys := (m.keys.map (expireStep now)).map (deprecateStep now) ++
      [newKey now expirationTime kid kpath] }

/-- The `find`-and-mutate core of `revokeKey`
(`src/jwks.service.ts:206-219`): locate the first record satisfying the
criterion; if none exists return `none` (the "Key not found" early
return); otherwise set its `status := revoked` and `revokedAt := now`
and report whether the record `wasActive` before the mutation. -/
def revokeKeyCore (p : Key → Bool) (now : Int) : List Key → Option (List Key × Bool)
  | [] => none
  | k :: rest =>
    if p k then
      some (({ k with status := Status.revoked, revokedAt := some now } :: rest),
        k.status = Status.active)
    else
      (revokeKeyCore p now rest).map (fun r => (k :: r.1, r.2))

/-- The criterion of `revokeKey` (`src/jwks.service.ts:206-208`):
`kid ? (key) => key.kid === kid : (key) => key.status === "active"`.
The test is JavaScript truthiness, and the only falsy string is the
empty string, so both `undefined` and `""` fall back to matching the
`active` record; any other id matches by `kid` equality. -/
def revokeCriterion (kidArg : Option String) : Key → Bool :=
  match kidArg with
  | some s =>
    if s = "" then
      fun k => k.status = Status.active
    else
      fun k => k.kid = s
  | none => fun k => k.status = Status.active

/-- The metadata mutation performed by `revokeKey`
(`src/jwks.service.ts:203-227`): if no record matches the criterion the
collection is untouched; otherwise the first match is revoked, and if it
was the active record a full rotation runs (`newKid`/`newPath` are the
oracle data for that rotation). -/
def revokeKey (kidArg : Option String) (now expirationTime : Int) (newKid newPath : String)
    (m : Metadata) : Metadata :=
  match revokeKeyCore (revokeCriterion kidArg) now m.keys with
  | none => m
  | some r =>
    if r.2 then
      rotateKeys now expirationTime newKid newPath { keys := r.1 }
    else
      { keys := r.1 }

/-- The batch pass of `revokeAllKeys` (`src/jwks.service.ts:232-238`),
acting on one record: every record that is neither `expired` nor
`revoked` gets `status := revoked` and `revokedAt := now`. -/
def revokeAllStep (now : Int) (k : Key) : Key :=
  if k.status ≠ Status.expired ∧ k.status ≠ Status.revoked then
    { k with status := Status.revoked, revokedAt := some now }
  else
    k

/-- The metadata mutation performed by `revokeAllKeys`
(`src/jwks.service.ts:229-241`): revoke every non-terminal record, then
unconditionally run `rotateKeys`. -/
def revokeAllKeys (now expirationTime : Int) (newKid newPath : String) (m : Metadata) :
    Metadata :=
  rotateKeys now expirationTime newKid newPath { keys := m.keys.map (revokeAllStep now) }

/-- The sweep of `purgeKeyFiles` (`src/jwks.service.ts:246-255`), acting
on one record: a record with status `expired` or `revoked` and a
non-null `keyPath` has its key file deleted, `keyPath := null` and
`removedAt := now`; all other records are untouched. -/
def purgeStep (now : Int) (k : Key) : Key :=
  if (k.status = Status.expired ∨ k.status = Status.revoked) ∧ k.keyPath.isSome then
    { k with keyPath := none, removedAt := some now }
  else
    k

/-- The metadata mutation performed by `purgeKeyFiles`
(`src/jwks.service.ts:243-258`). -/
def purgeKeyFiles (now : Int) (m : Metadata) : Metadata :=
  { keys := m.keys.map (purgeStep now) }

/-- A published JWK as assembled by `exportJwk`
(`src/jwks.service.ts:333-342`): the decoded key material is abstracted
away; the entry keeps the `kid`, the configured algorithm and the fixed
`use = "sig"` marker set there. -/
structure Jwk where
  kid : String
  alg : String
  use : String
deriving DecidableEq, Repr

/-- The rebuild loop of `updateJwks` (`src/jwks.service.ts:260-293`):
skip `expired`/`revoked` records, skip records with a null `keyPath`,
skip records whose key file is missing (`fs.existsSync`), skip records
whose material fails to load or export (the `try`/`catch`); every
surviving record contributes one entry in collection order.
`fsExists` and `decodes` are the filesystem/crypto oracles. -/
def updateJwks (alg : String) (fsExists decodes : String → Bool) : List Key → List Jwk
  | [] => []
  | k :: rest =>
    if k.status = Status.expired ∨ k.status = Status.revoked then
      updateJwks alg fsExists decodes rest
    else
      match k.keyPath with
      | none => updateJwks alg fsExists decodes rest
      | some p =>
        if fsExists p then
          if decodes p then
            { kid := k.kid, alg := alg, use := "sig" } :: updateJwks alg fsExists decodes rest
          else
            updateJwks alg fsExists decodes rest
        else
          updateJwks alg fsExists decodes rest

/-- The algorithm union of `src/interfaces/config.interface.ts`. -/
inductive Algorithm where
  | Ed25519
  | EdDSA
  | ES256
  | ES384
  | ES512
  | PS256
  | PS384
  | PS512
  | RS256
  | RS384
  | RS512
deriving DecidableEq, Repr

/-- Constant `RSA_BASED_ALGORITHMS` from `src/constants/algorithms.constants.ts`. -/
def RSA_BASED_ALGORITHMS : List Algorithm :=
  [Algorithm.PS256, Algorithm.PS384, Algorithm.PS512,
   Algorithm.RS256, Algorithm.RS384, Algorithm.RS512]

/-- Constant `DEFAULT_ALGORITHM` from `src/constants/defaults.constants.ts`. -/
def DEFAULT_ALGORITHM : Algorithm := Algorithm.EdDSA

/-- Constant `DEFAULT_MODULUS_LENGTH` from `src/constants/defaults.constants.ts`. -/
def DEFAULT_MODULUS_LENGTH : Int := 2048

/-- Constant `DEFAULT_ROTATION_INTERVAL` (7 days in ms) from
`src/constants/defaults.constants.ts`. -/
def DEFAULT_ROTATION_INTERVAL : Int := 7 * 24 * 60 * 60 * 1000

/-- Constant `DEFAULT_EXPIRATION_TIME` (28 days in ms) from
`src/constants/defaults.constants.ts`. -/
def DEFAULT_EXPIRATION_TIME : Int := 28 * 24 * 60 * 60 * 1000

/-- The service-relevant part of `JwksModuleConfig`
(`src/interfaces/config.interface.ts`); every field is optional. -/
structure JwksModuleConfig where
  algorithm : Option Algorithm
  modulusLength : Option Int
  rotationInterval : Option Int
  expirationTime : Option Int
deriving DecidableEq, Repr

/-- The resolved configuration held by a constructed `JwksService`:
its `algorithm`, `modulusLength`, `rotationInterval` and
`expirationTime` fields (`src/jwks.service.ts:31-34`). -/
structure ServiceConfig where
  algorithm : Algorithm
  modulusLength : Option Int
  rotationInterval : Int
  expirationTime : Int
deriving DecidableEq, Repr

/-- The `JwksService` constructor (`src/jwks.service.ts:43-83`): fills
in defaults and throws (`InternalServerErrorException`) exactly when an
RSA-based algorithm is configured with a resolved modulus length below
2048.  Short rotation intervals, oversized intervals and small
expiration windows only produce log warnings and are accepted. -/
def mkService (config : Option JwksModuleConfig) : Except String ServiceConfig :=
  let algorithm := (config.bind (·.algorithm)).getD DEFAULT_ALGORITHM
  let rotationInterval := (config.bind (·.rotationInterval)).getD DEFAULT_ROTATION_INTERVAL
  let expirationTime := (config.bind (·.expirationTime)).getD DEFAULT_EXPIRATION_TIME
  if algorithm ∈ RSA_BASED_ALGORITHMS then
    let modulusLength := (config.bind (·.modulusLength)).getD DEFAULT_MODULUS_LENGTH
    if modulusLength < 2048 then
      Except.error "RSA modulus length must be at least 2048 for security"
    else
      Except.ok ⟨algorithm, some modulusLength, rotationInterval, expirationTime⟩
  else
    Except.ok ⟨algorithm, none, rotationInterval, expirationTime⟩

/-- Function `saveMetadata` (`src/jwks.service.ts:295-298`): a single
`fs.writeFileSync` of the whole document; the oracle `writeOk` tells
whether the write succeeds, and a failure is the thrown exception. -/
def saveMetadata (writeOk : Bool) : Except String Unit :=
  if writeOk then Except.ok () else Except.error "metadata write failure"

/-- Variant of `rotateKeys` with its persistence step made explicit
(`src/jwks.service.ts:121-191`): the in-memory `this.metadata` is
mutated in place (expire, deprecate, push) and only then is
`saveMetadata` called, so a write failure propagates to the caller
after the mutation.  The result pairs the in-memory collection as the
operation leaves it with the outcome surfaced to the caller. -/
def rotateKeysWithSave (writeOk : Bool) (now expirationTime : Int) (kid kpath : String)
    (m : Metadata) : Metadata × Except String Unit :=
  (rotateKeys now expirationTime kid kpath m, saveMetadata writeOk)

/-- The metadata collections reachable from the initial empty
collection (`src/jwks.service.ts:37`) by any sequence of the engine
operations, with arbitrary clock readings and oracle data at every
step; `et` is the instance's fixed `expirationTime`. -/
inductive Reachable (et : Int) : Metadata → Prop where
  | init : Reachable et { keys := [] }
  | rotate (now : Int) (kid kpath : String) (m : Metadata) :
      Reachable et m → Reachable et (rotateKeys now et kid kpath m)
  | revoke (kidArg : Option String) (now : Int) (newKid newPath : String) (m : Metadata) :
      Reachable et m → Reachable et (revokeKey kidArg now et newKid newPath m)
  | revokeAll (now : Int) (newKid newPath : String) (m : Metadata) :
      Reachable et m → Reachable et (revokeAllKeys now et newKid newPath m)
  | purge (now : Int) (m : Metadata) :
      Reachable et m → Reachable et (purgeKeyFiles now m)

/-- The number of records with `status = active` in a collection. -/
def countActive (keys : List Key) : Nat :=
  (keys.filter (fun k => k.status = Status.active)).length

/-- The published key set as the spec's §4.3 words describe it: one
entry per record, in collection order, exactly for the records whose
status is outside the terminal pair, whose material reference is
non-null and whose referenced material exists and decodes; each entry
carries the record's id, the configured algorithm and the fixed
signature-usage marker. -/
def publishedSetSpec (alg : String) (fsExists decodes : String → Bool) (keys : List Key) :
    List Jwk :=
  keys.filterMap (fun k =>
    match k.keyPath with
    | none => none
    | some p =>
      if k.status ≠ Status.expired ∧ k.status ≠ Status.revoked ∧ fsExists p ∧ decodes p then
        some { kid := k.kid, alg := alg, use := "sig" }
      else
        none)

/-! ### Helper lemmas about the per-record steps -/

theorem expireStep_kid (now : Int) (k : Key) : (expireStep now k).kid = k.kid := by
  unfold expireStep
  split <;> rfl

theorem deprecateStep_kid (now : Int) (k : Key) : (deprecateStep now k).kid = k.kid := by
  unfold deprecateStep
  split <;> rfl

theorem expireStep_createdAt (now : Int) (k : Key) :
    (expireStep now k).createdAt = k.createdAt := by
  unfold expireStep
  split <;> rfl

theorem expireStep_expiresAt (now : Int) (k : Key) :
    (expireStep now k).expiresAt = k.expiresAt := by
  unfold expireStep
  split <;> rfl

theorem deprecateStep_createdAt (now : Int) (k : Key) :
    (deprecateStep now k).createdAt = k.createdAt := by
  unfold deprecateStep
  split <;> rfl

theorem deprecateStep_expiresAt (now : Int) (k : Key) :
    (deprecateStep now k).expiresAt = k.expiresAt := by
  unfold deprecateStep
  split <;> rfl

theorem expireStep_of_revoked (now : Int) (k : Key) (h : k.status = Status.revoked) :
    expireStep now k = k := by
  unfold expireStep
  rw [if_neg]
  simp [h]

theorem expireStep_of_expired (now : Int) (k : Key) (h : k.status = Status.expired) :
    expireStep now k = k := by
  unfold expireStep
  rw [if_neg]
  simp [h]

theorem deprecateStep_of_not_active (now : Int) (k : Key) (h : k.status ≠ Status.active) :
    deprecateStep now k = k := by
  unfold deprecateStep
  rw [if_neg h]

theorem deprecateStep_status_ne_active (now : Int) (k : Key) :
    (deprecateStep now k).status ≠ Status.active := by
  unfold deprecateStep
  split
  next h => simp
  next h => simpa using h

theorem purgeStep_status (now : Int) (k : Key) : (purgeStep now k).status = k.status := by
  unfold purgeStep
  split <;> rfl

theorem purgeStep_createdAt (now : Int) (k : Key) :
    (purgeStep now k).createdAt = k.createdAt := by
  unfold purgeStep
  split <;> rfl

theorem purgeStep_expiresAt (now : Int) (k : Key) :
    (purgeStep now k).expiresAt = k.expiresAt := by
  unfold purgeStep
  split <;> rfl

theorem revokeAllStep_status_ne_active (now : Int) (k : Key) :
    (revokeAllStep now k).status ≠ Status.active := by
  unfold revokeAllStep
  split
  next h => simp
  next h => rcases h1 : k.status <;> simp_all

theorem revokeAllStep_of_terminal (now : Int) (k : Key)
    (h : k.status = Status.expired ∨ k.status = Status.revoked) :
    revokeAllStep now k = k := by
  unfold revokeAllStep
  rw [if_neg]
  rcases h with h | h <;> simp [h]

theorem revokeAllStep_createdAt (now : Int) (k : Key) :
    (revokeAllStep now k).createdAt = k.createdAt := by
  unfold revokeAllStep
  split <;> rfl

theorem revokeAllStep_expiresAt (now : Int) (k : Key) :
    (revokeAllStep now k).expiresAt = k.expiresAt := by
  unfold revokeAllStep
  split <;> rfl

/-- Idempotence of the purge sweep on a single record: once a record's
`keyPath` is cleared (or it never qualified), a second sweep at any
later clock reading leaves it untouched. -/
theorem purgeStep_purgeStep (now1 now2 : Int) (k : Key) :
    purgeStep now2 (purgeStep now1 k) = purgeStep now1 k := by
  unfold purgeStep
  split
  next h => simp
  next h => rfl

/-- Decomposition of the `find`-and-mutate core of `revokeKey`: a
successful lookup splits the collection at the first record matching
the criterion, and only that record is rewritten. -/
theorem revokeKeyCore_eq_some (p : Key → Bool) (now : Int) :
    ∀ keys keys2 w, revokeKeyCore p now keys = some (keys2, w) →
      ∃ pre a post, keys = pre ++ a :: post ∧ (∀ x ∈ pre, ¬ p x) ∧ p a ∧
        keys2 = pre ++ { a with status := Status.revoked, revokedAt := some now } :: post ∧
        w = decide (a.status = Status.active)
  | [], keys2, w, h => by simp [revokeKeyCore] at h
  | k :: rest, keys2, w, h => by
    rw [revokeKeyCore] at h
    by_cases hp : p k
    · rw [if_pos hp] at h
      simp only [Option.some.injEq, Prod.mk.injEq] at h
      exact ⟨[], k, rest, by simp, by simp, hp, h.1.symm, h.2.symm⟩
    · rw [if_neg hp] at h
      rcases hcore : revokeKeyCore p now rest with _ | r
      · rw [hcore] at h
        simp at h
      · rw [hcore] at h
        simp only [Option.map, Option.some.injEq, Prod.mk.injEq] at h
        obtain ⟨pre, a, post, hsplit, hpre, hpa, hkeys, hw⟩ :=
          revokeKeyCore_eq_some p now rest r.1 r.2 (by rw [hcore])
        refine ⟨k :: pre, a, post, by simp [hsplit], ?_, hpa, ?_, ?_⟩
        · intro x hx
          rcases List.mem_cons.mp hx with hx | hx
          · rw [hx]
            exact hp
          · exact hpre x hx
        · rw [← h.1, hkeys]
          simp
        · rw [← h.2]
          exact hw
termination_by keys => keys.length

/-- A failed lookup: when no record matches the criterion,
`revokeKey` hits its "Key not found" early return. -/
theorem revokeKeyCore_eq_none (p : Key → Bool) (now : Int) :
    ∀ keys, (∀ k ∈ keys, ¬ p k) → revokeKeyCore p now keys = none
  | [], _ => rfl
  | k :: rest, h => by
    rw [revokeKeyCore, if_neg (h k (List.mem_cons_self _ _)),
      revokeKeyCore_eq_none p now rest (fun x hx => h x (List.mem_cons_of_mem _ hx))]
    rfl

/-- The per-record selection function that `updateJwks` computes: the
bridge between the loop in the code and the spec-level description. -/
def jwkEntry (alg : String) (fsExists decodes : String → Bool) (k : Key) : Option Jwk :=
  match k.keyPath with
  | none => none
  | some p =>
    if k.status ≠ Status.expired ∧ k.status ≠ Status.revoked ∧ fsExists p ∧ decodes p then
      some { kid := k.kid, alg := alg, use := "sig" }
    else
      none

/-- The rebuild loop of `updateJwks` is the `filterMap` of the
per-record selection function. -/
theorem updateJwks_eq_filterMap (alg : String) (fsExists decodes : String → Bool) :
    ∀ keys, updateJwks alg fsExists decodes keys =
      keys.filterMap (jwkEntry alg fsExists decodes)
  | [] => rfl
  | k :: rest => by
    have ih := updateJwks_eq_filterMap alg fsExists decodes rest
    rw [updateJwks, List.filterMap_cons]
    by_cases hterm : k.status = Status.expired ∨ k.status = Status.revoked
    · rw [if_pos hterm]
      rcases hpath : k.keyPath with _ | pth
      · simp only [jwkEntry, hpath]
        exact ih
      · simp only [jwkEntry, hpath]
        rw [if_neg (by rcases hterm with h | h <;> simp [h])]
        exact ih
    · rw [if_neg hterm]
      rcases hpath : k.keyPath with _ | pth
      · simp only [hpath, jwkEntry]
        exact ih
      · simp only [hpath, jwkEntry]
        by_cases hfe : fsExists pth
        · by_cases hdc : decodes pth
          · rw [if_pos hfe, if_pos hdc,
              if_pos ⟨fun hc => hterm (Or.inl hc), fun hc => hterm (Or.inr hc), hfe, hdc⟩, ih]
          · rw [if_pos hfe, if_neg hdc, if_neg (by simp [hdc])]
            exact ih
        · rw [if_neg hfe, if_neg (by simp [hfe])]
          exact ih

/-- Every entry of the rebuilt key set is contributed by a record of
the collection with the same id and a non-terminal status. -/
theorem updateJwks_mem (alg : String) (fsExists decodes : String → Bool) (keys : List Key)
    (j : Jwk) (hj : j ∈ updateJwks alg fsExists decodes keys) :
    ∃ k ∈ keys, j.kid = k.kid ∧ k.status ≠ Status.expired ∧ k.status ≠ Status.revoked := by
  rw [updateJwks_eq_filterMap] at hj
  obtain ⟨k, hk, hf⟩ := List.mem_filterMap.mp hj
  rcases hpath : k.keyPath with _ | pth
  · simp [jwkEntry, hpath] at hf
  · simp only [jwkEntry, hpath] at hf
    split at hf
    next hcond =>
      simp only [Option.some.injEq] at hf
      exact ⟨k, hk, by rw [← hf], hcond.1, hcond.2.1⟩
    next hcond =>
      simp at hf

/-! ### The at-most-one-active invariant (C1) -/

theorem filter_active_map_deprecate (now : Int) (l : List Key) :
    (l.map (deprecateStep now)).filter (fun k => k.status = Status.active) = [] := by
  rw [List.filter_eq_nil_iff]
  intro a ha
  obtain ⟨b, _, rfl⟩ := List.mem_map.mp ha
  simpa using deprecateStep_status_ne_active now b

/-- A rotation pass always leaves exactly one `active` record: the
deprecate pass clears every previous `active`, and the appended record
is the only `active` one. -/
theorem countActive_rotateKeys (now et : Int) (kid kpath : String) (m : Metadata) :
    countActive (rotateKeys now et kid kpath m).keys = 1 := by
  unfold rotateKeys countActive
  rw [List.filter_append, filter_active_map_deprecate]
  simp [newKey]

theorem countActive_revokeKeyCore_le (p : Key → Bool) (now : Int) (keys keys2 : List Key)
    (w : Bool) (h : revokeKeyCore p now keys = some (keys2, w)) :
    countActive keys2 ≤ countActive keys := by
  obtain ⟨pre, a, post, hsplit, _, _, hkeys, _⟩ := revokeKeyCore_eq_some p now keys keys2 w h
  subst hsplit hkeys
  unfold countActive
  simp only [List.filter_append, List.length_append, List.filter_cons]
  apply Nat.add_le_add_left
  split
  next hr => simp at hr
  next hr =>
    split
    next => simp [Nat.le_succ]
    next => exact Nat.le_refl _

theorem countActive_revokeKey_le (kidArg : Option String) (now et : Int)
    (newKid newPath : String) (m : Metadata) (hm : countActive m.keys ≤ 1) :
    countActive (revokeKey kidArg now et newKid newPath m).keys ≤ 1 := by
  rw [revokeKey]
  rcases hcore : revokeKeyCore (revokeCriterion kidArg) now m.keys with _ | r
  · exact hm
  · obtain ⟨keys2, w⟩ := r
    by_cases hw : w
    · simp only [hw, if_true]
      rw [countActive_rotateKeys]
    · simp only [hw, if_false, Bool.false_eq_true]
      exact Nat.le_trans (countActive_revokeKeyCore_le _ now m.keys keys2 w hcore) hm

theorem countActive_purgeKeyFiles (now : Int) (m : Metadata) :
    countActive (purgeKeyFiles now m).keys = countActive m.keys := by
  unfold purgeKeyFiles countActive
  rw [List.filter_map, List.length_map]
  congr 1
  apply List.filter_congr
  intro k _
  simp [Function.comp, purgeStep_status]

/-! ### The expiry-window invariant (C3) -/

theorem window_rotateKeys (now et : Int) (het : 0 ≤ et) (kid kpath : String) (m : Metadata)
    (hm : ∀ k ∈ m.keys, k.createdAt ≤ k.expiresAt) :
    ∀ k ∈ (rotateKeys now et kid kpath m).keys, k.createdAt ≤ k.expiresAt := by
  intro k hk
  rw [rotateKeys] at hk
  rcases List.mem_append.mp hk with hk | hk
  · obtain ⟨k1, hk1, rfl⟩ := List.mem_map.mp hk
    obtain ⟨k0, hk0, rfl⟩ := List.mem_map.mp hk1
    rw [deprecateStep_createdAt, deprecateStep_expiresAt, expireStep_createdAt,
      expireStep_expiresAt]
    exact hm k0 hk0
  · simp only [List.mem_singleton] at hk
    rw [hk]
    simp only [newKey]
    omega

theorem window_revokeKeyCore (p : Key → Bool) (now : Int) (keys keys2 : List Key) (w : Bool)
    (h : revokeKeyCore p now keys = some (keys2, w))
    (hm : ∀ k ∈ keys, k.createdAt ≤ k.expiresAt) :
    ∀ k ∈ keys2, k.createdAt ≤ k.expiresAt := by
  obtain ⟨pre, a, post, hsplit, _, _, hkeys, _⟩ := revokeKeyCore_eq_some p now keys keys2 w h
  subst hsplit hkeys
  intro k hk
  rcases List.mem_append.mp hk with hk | hk
  · exact hm k (List.mem_append_left _ hk)
  · rcases List.mem_cons.mp hk with hk | hk
    · rw [hk]
      exact hm a (List.mem_append_right _ (List.mem_cons_self _ _))
    · exact hm k (List.mem_append_right _ (List.mem_cons_of_mem _ hk))

/-! ### Positional preservation of terminal statuses (C2) -/

theorem expireStep_of_terminal (now : Int) (k : Key)
    (h : k.status = Status.expired ∨ k.status = Status.revoked) :
    expireStep now k = k := by
  rcases h with h | h
  · exact expireStep_of_expired now k h
  · exact expireStep_of_revoked now k h

/-- The record at position `i` survives a rotation pass unchanged when
its status is terminal: the expire and deprecate passes skip it, and the
new record is appended after it. -/
theorem rotateKeys_getElem_terminal (now et : Int) (kid kpath : String) (m : Metadata)
    (i : Nat) (hi : i < m.keys.length)
    (hterm : (m.keys[i]).status = Status.expired ∨ (m.keys[i]).status = Status.revoked) :
    (rotateKeys now et kid kpath m).keys[i]? = some m.keys[i] := by
  rw [rotateKeys]
  rw [List.getElem?_append_left (by simp [hi]), List.getElem?_map, List.getElem?_map,
    List.getElem?_eq_getElem hi]
  simp only [Option.map, expireStep_of_terminal now _ hterm]
  rw [deprecateStep_of_not_active now _ (by rcases hterm with h | h <;> simp [h])]

/-- A record not matched by the criterion is untouched, at its
position, by the mutation core of `revokeKey`. -/
theorem revokeKeyCore_getElem_not_matched (p : Key → Bool) (now : Int) :
    ∀ keys keys2 w i, revokeKeyCore p now keys = some (keys2, w) →
      ∀ hi : i < keys.length, ¬ p keys[i] → keys2[i]? = some keys[i]
  | [], _, _, _, h => by simp [revokeKeyCore] at h
  | k :: rest, keys2, w, i, h => by
    intro hi hnp
    rw [revokeKeyCore] at h
    by_cases hp : p k
    · rw [if_pos hp] at h
      simp only [Option.some.injEq, Prod.mk.injEq] at h
      cases i with
      | zero => exact absurd hp (by simpa using hnp)
      | succ j =>
        rw [← h.1, List.getElem?_cons_succ]
        have hj : j < rest.length := by simpa using hi
        rw [List.getElem?_eq_getElem hj]
        simp
    · rw [if_neg hp] at h
      rcases hcore : revokeKeyCore p now rest with _ | r
      · rw [hcore] at h
        simp at h
      · rw [hcore] at h
        simp only [Option.map, Option.some.injEq, Prod.mk.injEq] at h
        cases i with
        | zero =>
          rw [← h.1]
          simp
        | succ j =>
          rw [← h.1, List.getElem?_cons_succ]
          have hj : j < rest.length := by simpa using hi
          have := revokeKeyCore_getElem_not_matched p now rest r.1 r.2 j
            (by rw [hcore]) hj (by simpa using hnp)
          simpa using this

/-- A `none` result of the mutation core means no record matched the
criterion. -/
theorem revokeKeyCore_none_no_match (p : Key → Bool) (now : Int) :
    ∀ keys, revokeKeyCore p now keys = none → ∀ k ∈ keys, ¬ p k
  | [], _, k, hk => by simp at hk
  | k0 :: rest, h, k, hk => by
    rw [revokeKeyCore] at h
    by_cases hp : p k0
    · rw [if_pos hp] at h
      exact absurd h (by simp)
    · rw [if_neg hp] at h
      rcases hcore : revokeKeyCore p now rest with _ | r
      · rcases List.mem_cons.mp hk with heq | hk2
        · rw [heq]
          exact hp
        · exact revokeKeyCore_none_no_match p now rest hcore k hk2
      · rw [hcore] at h
        simp at h

/-! ### Concrete example records used by witnesses and counterexamples -/

/-- A concrete `active` record. -/
def exActive : Key :=
  { kid := "k1"
    status := Status.active
    createdAt := 0
    expiresAt := 50
    deprecatedAt := none
    expiredAt := none
    revokedAt := none
    removedAt := none
    keyPath := some "p1" }

/-- A concrete overdue `active` record (`expiresAt = 5`). -/
def exOverdue : Key :=
  { kid := "k1"
    status := Status.active
    createdAt := 0
    expiresAt := 5
    deprecatedAt := none
    expiredAt := none
    revokedAt := none
    removedAt := none
    keyPath := some "p1" }

/-- A concrete `expired` record. -/
def exExpired : Key :=
  { kid := "e1"
    status := Status.expired
    createdAt := 0
    expiresAt := 5
    deprecatedAt := none
    expiredAt := some 5
    revokedAt := none
    removedAt := none
    keyPath := some "pe" }

/-! ### Claim theorems -/

/-- C5: after a rebuild, the published key set contains one entry per
metadata record, in collection order, exactly for the records whose
status is neither `expired` nor `revoked`, whose `keyPath` is non-null
and whose referenced material exists and decodes; a record failing the
material checks is skipped without aborting the rebuild, and each entry
carries the record's id, the configured algorithm and the `"sig"` usage
marker. -/
theorem updateJwks_matches_publisher_spec (alg : String) (fsExists decodes : String → Bool)
    (keys : List Key) :
    updateJwks alg fsExists decodes keys = publishedSetSpec alg fsExists decodes keys := by
  rw [updateJwks_eq_filterMap]
  rfl

/-- C8: `purgeKeyFiles` is idempotent — a second purge with no
intervening operation changes nothing, whatever the starting collection
and whatever the two clock readings. -/
theorem purgeKeyFiles_idempotent (now1 now2 : Int) (m : Metadata) :
    purgeKeyFiles now2 (purgeKeyFiles now1 m) = purgeKeyFiles now1 m := by
  simp only [purgeKeyFiles, List.map_map, Metadata.mk.injEq]
  apply List.map_congr_left
  intro k _
  exact purgeStep_purgeStep now1 now2 k

/-- C9: starting from the empty collection with expiration window 28
days, rotation passes at days 0, 7, 14 and 21 leave exactly 4 records —
1 `active`, 3 `deprecated`, none `expired` — and the published key set
contains an entry for each of the 4. -/
theorem four_rotations_scenario :
    (rotateKeys (21 * 86400000) (28 * 86400000) "k4" "p4"
        (rotateKeys (14 * 86400000) (28 * 86400000) "k3" "p3"
          (rotateKeys (7 * 86400000) (28 * 86400000) "k2" "p2"
            (rotateKeys 0 (28 * 86400000) "k1" "p1" { keys := [] })))).keys.length = 4 ∧
    countActive (rotateKeys (21 * 86400000) (28 * 86400000) "k4" "p4"
        (rotateKeys (14 * 86400000) (28 * 86400000) "k3" "p3"
          (rotateKeys (7 * 86400000) (28 * 86400000) "k2" "p2"
            (rotateKeys 0 (28 * 86400000) "k1" "p1" { keys := [] })))).keys = 1 ∧
    ((rotateKeys (21 * 86400000) (28 * 86400000) "k4" "p4"
        (rotateKeys (14 * 86400000) (28 * 86400000) "k3" "p3"
          (rotateKeys (7 * 86400000) (28 * 86400000) "k2" "p2"
            (rotateKeys 0 (28 * 86400000) "k1" "p1" { keys := [] })))).keys.filter
      (fun k => k.status = Status.deprecated)).length = 3 ∧
    ((rotateKeys (21 * 86400000) (28 * 86400000) "k4" "p4"
        (rotateKeys (14 * 86400000) (28 * 86400000) "k3" "p3"
          (rotateKeys (7 * 86400000) (28 * 86400000) "k2" "p2"
            (rotateKeys 0 (28 * 86400000) "k1" "p1" { keys := [] })))).keys.filter
      (fun k => k.status = Status.expired)).length = 0 ∧
    (updateJwks "EdDSA" (fun _ => true) (fun _ => true)
      (rotateKeys (21 * 86400000) (28 * 86400000) "k4" "p4"
        (rotateKeys (14 * 86400000) (28 * 86400000) "k3" "p3"
          (rotateKeys (7 * 86400000) (28 * 86400000) "k2" "p2"
            (rotateKeys 0 (28 * 86400000) "k1" "p1" { keys := [] })))).keys).map Jwk.kid =
      ["k1", "k2", "k3", "k4"] := by
  decide

/-- C10: a rotation pass turns an overdue `active` record (one with
`expiresAt ≤ now`) directly into `expired` with `expiredAt = now`,
because the expire pass runs before the deprecate pass; such a record is
never deprecated and its `deprecatedAt` stays null. -/
theorem rotateKeys_overdue_active_expires (now et : Int) (kid kpath : String) (m : Metadata)
    (k : Key) (hk : k ∈ m.keys) (hstat : k.status = Status.active)
    (hexp : k.expiresAt ≤ now) (hdep : k.deprecatedAt = none) :
    ∃ r ∈ (rotateKeys now et kid kpath m).keys,
      r.kid = k.kid ∧ r.status = Status.expired ∧ r.expiredAt = some now ∧
      r.deprecatedAt = none := by
  have he : expireStep now k = { k with status := Status.expired, expiredAt := some now } := by
    unfold expireStep
    rw [if_pos]
    exact ⟨by simp [hstat], by simp [hstat], hexp⟩
  have hd : deprecateStep now (expireStep now k) = expireStep now k := by
    apply deprecateStep_of_not_active
    rw [he]
    simp
  refine ⟨deprecateStep now (expireStep now k), ?_, ?_⟩
  · rw [rotateKeys]
    exact List.mem_append_left _ (List.mem_map_of_mem _ (List.mem_map_of_mem _ hk))
  · rw [hd, he]
    exact ⟨rfl, rfl, rfl, hdep⟩

/-- Witness for C10 at a concrete overdue active record. -/
theorem rotateKeys_overdue_active_expires_witness :
    ∃ r ∈ (rotateKeys 10 1000 "k2" "p2" { keys := [exOverdue] }).keys,
      r.kid = exOverdue.kid ∧ r.status = Status.expired ∧ r.expiredAt = some 10 ∧
      r.deprecatedAt = none :=
  rotateKeys_overdue_active_expires 10 1000 "k2" "p2" { keys := [exOverdue] } exOverdue
    (by decide) (by decide) (by decide) (by decide)

/-- C7 counterexample: the empty string matches no record's kid, yet
`revokeKey("")` is not a no-op — JavaScript truthiness treats `""` as
no-id, so the criterion falls back to matching the `active` record,
which gets revoked, and a rotation runs (here leaving a revoked record
plus a fresh active one). -/
theorem revokeKey_empty_id_not_noop :
    (∀ k ∈ ({ keys := [exActive] } : Metadata).keys, k.kid ≠ "") ∧
    revokeKey (some "") 10 1000 "n1" "np" { keys := [exActive] } ≠ { keys := [exActive] } ∧
    (revokeKey (some "") 10 1000 "n1" "np" { keys := [exActive] }).keys.map Key.status =
      [Status.revoked, Status.active] :=
  ⟨by decide, by decide, by decide⟩

/-- C7 amended: `revokeKey` with a NON-EMPTY id matching no record
leaves the metadata collection and the published key set unchanged (the
"Key not found" early return); with the empty-string id, truthiness
makes the call equivalent to passing no id at all, so it targets the
active record instead of being a no-op. -/
theorem revokeKey_missing_id_noop (id : String) (hid : id ≠ "") (now et : Int)
    (newKid newPath : String) (m : Metadata) (h : ∀ k ∈ m.keys, k.kid ≠ id)
    (alg : String) (fsExists decodes : String → Bool) :
    revokeKey (some id) now et newKid newPath m = m ∧
    updateJwks alg fsExists decodes (revokeKey (some id) now et newKid newPath m).keys =
      updateJwks alg fsExists decodes m.keys := by
  have hnone : revokeKeyCore (revokeCriterion (some id)) now m.keys = none := by
    apply revokeKeyCore_eq_none
    intro k hk
    simpa [revokeCriterion, hid] using h k hk
  constructor
  · rw [revokeKey, hnone]
  · rw [revokeKey, hnone]

/-- Witness for C7 (amended) at a concrete collection and a missing
non-empty id. -/
theorem revokeKey_missing_id_noop_witness :
    revokeKey (some "zz") 10 1000 "n1" "np" { keys := [exActive] } = { keys := [exActive] } ∧
    updateJwks "EdDSA" (fun _ => true) (fun _ => true)
        (revokeKey (some "zz") 10 1000 "n1" "np" { keys := [exActive] }).keys =
      updateJwks "EdDSA" (fun _ => true) (fun _ => true) ({ keys := [exActive] } : Metadata).keys :=
  revokeKey_missing_id_noop "zz" (by decide) 10 1000 "n1" "np" { keys := [exActive] }
    (by decide) "EdDSA" (fun _ => true) (fun _ => true)

/-- C1: every metadata collection reachable from the initial empty
collection by any sequence of `rotateKeys`, `revokeKey`, `revokeAllKeys`
and `purgeKeyFiles` contains at most one record with `status = active`. -/
theorem reachable_at_most_one_active (et : Int) (m : Metadata) (h : Reachable et m) :
    countActive m.keys ≤ 1 := by
  induction h with
  | init => simp [countActive]
  | rotate now kid kpath m0 _ _ =>
    rw [countActive_rotateKeys]
  | revoke kidArg now newKid newPath m0 _ ih =>
    exact countActive_revokeKey_le kidArg now et newKid newPath m0 ih
  | revokeAll now newKid newPath m0 _ _ =>
    rw [revokeAllKeys, countActive_rotateKeys]
  | purge now m0 _ ih =>
    rw [countActive_purgeKeyFiles]
    exact ih

/-- Witness for C1 at a concrete reachable collection. -/
theorem reachable_at_most_one_active_witness :
    countActive (purgeKeyFiles 7 (rotateKeys 0 1000 "k1" "p1" { keys := [] })).keys ≤ 1 :=
  reachable_at_most_one_active 1000 _
    (Reachable.purge 7 _ (Reachable.rotate 0 "k1" "p1" { keys := [] } Reachable.init))

/-- C3 counterexample: the constructor accepts a configuration with a
negative expiration window (window sizes only ever produce log
warnings), and the very first rotation under that accepted
configuration appends a reachable record with `expiresAt < createdAt`. -/
theorem mkService_accepts_negative_window :
    mkService (some ⟨none, none, none, some (-1)⟩) =
      Except.ok ⟨Algorithm.EdDSA, none, DEFAULT_ROTATION_INTERVAL, -1⟩ ∧
    Reachable (-1) (rotateKeys 0 (-1) "k1" "p1" { keys := [] }) ∧
    ¬ ∀ k ∈ (rotateKeys 0 (-1) "k1" "p1" { keys := [] }).keys, k.createdAt ≤ k.expiresAt :=
  ⟨rfl, Reachable.rotate 0 "k1" "p1" { keys := [] } Reachable.init, by decide⟩

/-- C3 amended: for every configuration accepted by the constructor
whose resolved expiration window is nonnegative (the unchecked
requirement the default satisfies), every record of every reachable
collection has `expiresAt ≥ createdAt`.  (The constructor itself does
not reject negative windows, see the counterexample.) -/
theorem reachable_expiry_window (config : Option JwksModuleConfig) (sc : ServiceConfig)
    (_hok : mkService config = Except.ok sc) (hnn : 0 ≤ sc.expirationTime)
    (m : Metadata) (h : Reachable sc.expirationTime m) :
    ∀ k ∈ m.keys, k.createdAt ≤ k.expiresAt := by
  clear _hok
  induction h with
  | init => simp
  | rotate now kid kpath m0 _ ih =>
    exact window_rotateKeys now sc.expirationTime hnn kid kpath m0 ih
  | revoke kidArg now newKid newPath m0 _ ih =>
    rw [revokeKey]
    rcases hcore : revokeKeyCore (revokeCriterion kidArg) now m0.keys with _ | r
    · exact ih
    · obtain ⟨keys2, w⟩ := r
      have h2 : ∀ k ∈ keys2, k.createdAt ≤ k.expiresAt :=
        window_revokeKeyCore (revokeCriterion kidArg) now m0.keys keys2 w hcore ih
      by_cases hw : w
      · simp only [hw, if_true]
        exact window_rotateKeys now sc.expirationTime hnn newKid newPath { keys := keys2 } h2
      · simp only [hw, if_false, Bool.false_eq_true]
        exact h2
  | revokeAll now newKid newPath m0 _ ih =>
    rw [revokeAllKeys]
    apply window_rotateKeys now sc.expirationTime hnn newKid newPath
    intro k hk
    obtain ⟨k0, hk0, rfl⟩ := List.mem_map.mp hk
    rw [revokeAllStep_createdAt, revokeAllStep_expiresAt]
    exact ih k0 hk0
  | purge now m0 _ ih =>
    intro k hk
    obtain ⟨k0, hk0, rfl⟩ := List.mem_map.mp hk
    rw [purgeStep_createdAt, purgeStep_expiresAt]
    exact ih k0 hk0

/-- Witness for C3 (amended) under the default configuration, at the
record the first rotation appends. -/
theorem reachable_expiry_window_witness :
    (newKey 0 DEFAULT_EXPIRATION_TIME "k1" "p1").createdAt ≤
      (newKey 0 DEFAULT_EXPIRATION_TIME "k1" "p1").expiresAt :=
  reachable_expiry_window none
    ⟨Algorithm.EdDSA, none, DEFAULT_ROTATION_INTERVAL, DEFAULT_EXPIRATION_TIME⟩ rfl
    (by decide) _ (Reachable.rotate 0 "k1" "p1" { keys := [] } Reachable.init)
    (newKey 0 DEFAULT_EXPIRATION_TIME "k1" "p1") (by simp [rotateKeys])

/-- C2 counterexample: `revokeKey` called with the id of an `expired`
record changes that record's status to `revoked`: the id lookup has no
status guard, so a terminal record can still be re-marked. -/
theorem revokeKey_changes_expired_status :
    exExpired.status = Status.expired ∧
    (revokeKey (some "e1") 10 1000 "n1" "np" { keys := [exExpired] }).keys.map Key.status =
      [Status.revoked] :=
  ⟨rfl, by decide⟩

/-- C2 amended: a record in a terminal state (`expired` or `revoked`)
keeps its status under `rotateKeys`, `revokeAllKeys` and
`purgeKeyFiles`, and under `revokeKey` whenever the revocation
criterion does not select it (no id given, or an id different from the
record's); the one exception, forced by the counterexample, is
`revokeKey` called with the record's own id, which re-marks the record
as `revoked`. -/
theorem terminal_status_preserved (m : Metadata) (i : Nat) (hi : i < m.keys.length)
    (hterm : (m.keys[i]).status = Status.expired ∨ (m.keys[i]).status = Status.revoked)
    (now et : Int) (kid kpath : String) :
    ((rotateKeys now et kid kpath m).keys[i]?.map Key.status = some (m.keys[i]).status) ∧
    ((revokeAllKeys now et kid kpath m).keys[i]?.map Key.status = some (m.keys[i]).status) ∧
    ((purgeKeyFiles now m).keys[i]?.map Key.status = some (m.keys[i]).status) ∧
    (∀ kidArg : Option String, (∀ s, kidArg = some s → (m.keys[i]).kid ≠ s) →
      (revokeKey kidArg now et kid kpath m).keys[i]?.map Key.status =
        some (m.keys[i]).status) := by
  refine ⟨?_, ?_, ?_, ?_⟩
  · rw [rotateKeys_getElem_terminal now et kid kpath m i hi hterm]
    rfl
  · rw [revokeAllKeys]
    have hi2 : i < (m.keys.map (revokeAllStep now)).length := by simpa using hi
    have hmi : (m.keys.map (revokeAllStep now))[i] = m.keys[i] := by
      rw [List.getElem_map]
      exact revokeAllStep_of_terminal now _ hterm
    rw [rotateKeys_getElem_terminal now et kid kpath { keys := m.keys.map (revokeAllStep now) }
      i hi2 (by rw [hmi]; exact hterm)]
    rw [hmi]
    rfl
  · rw [purgeKeyFiles]
    rw [List.getElem?_map, List.getElem?_eq_getElem hi]
    simp [Option.map, purgeStep_status]
  · intro kidArg hkid
    have hnp : ¬ revokeCriterion kidArg (m.keys[i]) := by
      cases kidArg with
      | none =>
        rcases hterm with h | h <;> simp [revokeCriterion, h]
      | some s =>
        by_cases hs : s = ""
        · rcases hterm with h | h <;> simp [revokeCriterion, hs, h]
        · simpa [revokeCriterion, hs] using hkid s rfl
    rw [revokeKey]
    rcases hcore : revokeKeyCore (revokeCriterion kidArg) now m.keys with _ | r
    · rw [List.getElem?_eq_getElem hi]
      rfl
    · obtain ⟨keys2, w⟩ := r
      have hk2 : keys2[i]? = some m.keys[i] :=
        revokeKeyCore_getElem_not_matched _ now m.keys keys2 w i hcore hi hnp
      obtain ⟨hi2, heq2⟩ := List.getElem?_eq_some.mp hk2
      by_cases hw : w
      · simp only [hw, if_true]
        rw [rotateKeys_getElem_terminal now et kid kpath { keys := keys2 } i hi2
          (by rw [heq2]; exact hterm)]
        rw [heq2]
        rfl
      · simp only [hw, if_false, Bool.false_eq_true]
        rw [hk2]
        rfl

/-- Witness for C2 (amended) at a concrete expired record. -/
theorem terminal_status_preserved_witness :
    ((rotateKeys 5 1000 "k9" "p9" { keys := [exExpired] }).keys[0]?.map Key.status =
      some exExpired.status) ∧
    ((revokeAllKeys 5 1000 "k9" "p9" { keys := [exExpired] }).keys[0]?.map Key.status =
      some exExpired.status) ∧
    ((purgeKeyFiles 5 { keys := [exExpired] }).keys[0]?.map Key.status =
      some exExpired.status) ∧
    (∀ kidArg : Option String, (∀ s, kidArg = some s → exExpired.kid ≠ s) →
      (revokeKey kidArg 5 1000 "k9" "p9" { keys := [exExpired] }).keys[0]?.map Key.status =
        some exExpired.status) :=
  terminal_status_preserved { keys := [exExpired] } 0 (by decide) (by decide) 5 1000 "k9" "p9"

/-- C6: `revokeKey` with no id, while exactly one record is `active`,
revokes that record (status `revoked`, `revokedAt = now`), then runs a
full rotation, so the resulting collection holds a fresh `active`
record, and the rebuilt published key set holds no entry for the
revoked record (assuming distinct record ids and a fresh generated
id). -/
theorem revokeKey_active_no_id (now et : Int) (newKid newPath : String) (m : Metadata)
    (a : Key) (hactive : m.keys.filter (fun k => k.status = Status.active) = [a])
    (hnodup : (m.keys.map Key.kid).Nodup) (hfresh : newKid ∉ m.keys.map Key.kid)
    (alg : String) (fsExists decodes : String → Bool) :
    (∃ r ∈ (revokeKey none now et newKid newPath m).keys,
        r.kid = a.kid ∧ r.status = Status.revoked ∧ r.revokedAt = some now) ∧
    (∃ r ∈ (revokeKey none now et newKid newPath m).keys, r.status = Status.active) ∧
    (∀ j ∈ updateJwks alg fsExists decodes (revokeKey none now et newKid newPath m).keys,
        j.kid ≠ a.kid) := by
  have ha_filter : a ∈ m.keys.filter (fun k => k.status = Status.active) := by
    rw [hactive]
    exact List.mem_cons_self _ _
  have ha_mem : a ∈ m.keys := (List.mem_filter.mp ha_filter).1
  have ha_status : a.status = Status.active := by
    simpa using (List.mem_filter.mp ha_filter).2
  rcases hcore : revokeKeyCore (revokeCriterion none) now m.keys with _ | r
  · exact absurd (by simpa [revokeCriterion] using ha_status)
      (revokeKeyCore_none_no_match _ now m.keys hcore a ha_mem)
  · obtain ⟨keys2, w⟩ := r
    obtain ⟨pre, b, post, hsplit, hpre, hpb, hkeys2, hw⟩ :=
      revokeKeyCore_eq_some (revokeCriterion none) now m.keys keys2 w hcore
    have hb_status : b.status = Status.active := by
      simpa [revokeCriterion] using hpb
    have hb_mem : b ∈ m.keys := by
      rw [hsplit]
      exact List.mem_append_right _ (List.mem_cons_self _ _)
    have hba : b = a := by
      have hb_filter : b ∈ m.keys.filter (fun k => k.status = Status.active) :=
        List.mem_filter.mpr ⟨hb_mem, by simp [hb_status]⟩
      rw [hactive] at hb_filter
      simpa using hb_filter
    subst hba
    have hwt : w = true := by
      rw [hw, hb_status]
      rfl
    have hresult : revokeKey none now et newKid newPath m =
        rotateKeys now et newKid newPath { keys := keys2 } := by
      rw [revokeKey, hcore, hwt]
      rfl
    set rb : Key := { b with status := Status.revoked, revokedAt := some now } with hrb
    have hrb_mem2 : rb ∈ keys2 := by
      rw [hkeys2]
      exact List.mem_append_right _ (List.mem_cons_self _ _)
    have hrb_fix : deprecateStep now (expireStep now rb) = rb := by
      rw [expireStep_of_revoked now rb rfl, deprecateStep_of_not_active now rb (by simp [hrb])]
    have hrb_mem : rb ∈ (rotateKeys now et newKid newPath { keys := keys2 }).keys := by
      rw [rotateKeys]
      apply List.mem_append_left
      have := List.mem_map_of_mem (deprecateStep now)
        (List.mem_map_of_mem (expireStep now) hrb_mem2)
      rwa [hrb_fix] at this
    have hne_b : ∀ x : Key, x ∈ pre ∨ x ∈ post → x.kid ≠ b.kid := by
      rw [hsplit, List.map_append, List.map_cons, List.nodup_append] at hnodup
      intro x hx heq
      rcases hx with hx | hx
      · exact hnodup.2.2 (List.mem_map_of_mem Key.kid hx)
          (by rw [heq]; exact List.mem_cons_self _ _)
      · exact (List.nodup_cons.mp hnodup.2.1).1 (by rw [← heq]; exact List.mem_map_of_mem _ hx)
    have hfresh_ne : newKid ≠ b.kid := by
      intro heq
      exact hfresh (heq ▸ List.mem_map_of_mem Key.kid hb_mem)

    rw [hresult]
    refine ⟨⟨rb, hrb_mem, rfl, rfl, rfl⟩, ?_, ?_⟩
    · refine ⟨newKey now et newKid newPath, ?_, rfl⟩
      rw [rotateKeys]
      exact List.mem_append_right _ (List.mem_cons_self _ _)
    · intro j hj heq
      obtain ⟨k, hk_mem, hk_kid, hk_nexp, hk_nrev⟩ :=
        updateJwks_mem alg fsExists decodes _ j hj
      rw [rotateKeys] at hk_mem
      rcases List.mem_append.mp hk_mem with hk_mem | hk_mem
      · obtain ⟨k1, hk1, rfl⟩ := List.mem_map.mp hk_mem
        obtain ⟨k0, hk0, rfl⟩ := List.mem_map.mp hk1
        have hkid0 : k0.kid = b.kid := by
          have : (deprecateStep now (expireStep now k0)).kid = k0.kid := by
            rw [deprecateStep_kid, expireStep_kid]
          rw [this] at hk_kid
          rw [← hk_kid, heq]
        rw [hkeys2] at hk0
        rcases List.mem_append.mp hk0 with hk0 | hk0
        · exact hne_b k0 (Or.inl hk0) hkid0
        · rcases List.mem_cons.mp hk0 with hk0 | hk0
          · apply hk_nrev
            rw [hk0, hrb_fix]
          · exact hne_b k0 (Or.inr hk0) hkid0
      · rcases List.mem_singleton.mp hk_mem with rfl
        apply hfresh_ne
        rw [← heq, hk_kid]
        rfl

/-- Witness for C6 at a concrete single-active-record collection. -/
theorem revokeKey_active_no_id_witness :
    (∃ r ∈ (revokeKey none 10 1000 "n1" "np" { keys := [exActive] }).keys,
        r.kid = exActive.kid ∧ r.status = Status.revoked ∧ r.revokedAt = some 10) ∧
    (∃ r ∈ (revokeKey none 10 1000 "n1" "np" { keys := [exActive] }).keys,
        r.status = Status.active) ∧
    (∀ j ∈ updateJwks "EdDSA" (fun _ => true) (fun _ => true)
        (revokeKey none 10 1000 "n1" "np" { keys := [exActive] }).keys,
        j.kid ≠ exActive.kid) :=
  revokeKey_active_no_id 10 1000 "n1" "np" { keys := [exActive] } exActive (by decide)
    (by decide) (by decide) "EdDSA" (fun _ => true) (fun _ => true)

/-- C4 counterexample: when the metadata write fails, `rotateKeys`
does surface the error, but the in-memory collection is NOT the one the
operation started from — the mutation (here: the appended new record)
survives in memory. -/
theorem rotateKeys_save_failure_not_rolled_back :
    (rotateKeysWithSave false 0 1000 "k1" "p1" { keys := [] }).2 =
      Except.error "metadata write failure" ∧
    (rotateKeysWithSave false 0 1000 "k1" "p1" { keys := [] }).1 ≠ { keys := [] } := by
  constructor
  · rfl
  · decide

/-- C4 amended: a metadata write failure during `rotateKeys` surfaces
to the caller as an error, but the in-memory collection retains the
full mutation (it equals the rotated collection, one record longer than
before) — there is no rollback to the pre-operation collection. -/
theorem rotateKeys_save_failure_surfaces (now et : Int) (kid kpath : String) (m : Metadata) :
    (rotateKeysWithSave false now et kid kpath m).2 = Except.error "metadata write failure" ∧
    (rotateKeysWithSave false now et kid kpath m).1 = rotateKeys now et kid kpath m ∧
    (rotateKeysWithSave false now et kid kpath m).1.keys.length = m.keys.length + 1 := by
  refine ⟨rfl, rfl, ?_⟩
  simp [rotateKeysWithSave, rotateKeys]

end NestjsJwks
